import Mathlib

/-!
Verification of the execution/state-identity subsystem of the
terraform-provider-kclx repository (internal/provider: `KclExecResource`).

The development embeds the `Create`/`Update` lifecycle of the single resource
type as pure Lean functions over an explicit `World` that supplies the ambient
environment, the filesystem `stat` oracle, the working directory, and the
behaviour of the external tool.  Standard-library functions the Go code calls
(`crypto/sha256`, `encoding/hex`, `path/filepath.Abs`, `strings.TrimSpace`,
the `fmt` rendering of a string slice) are implemented faithfully from their
documented semantics.
-/

namespace KclSpec

/-! ### SHA-256 (FIPS 180-4), over byte lists, as used by crypto/sha256 -/

/-- Truncate to a 32-bit word. -/
def w32 (x : Nat) : Nat := x % 4294967296

/-- Right rotation of a 32-bit word. -/
def rotr (n x : Nat) : Nat := w32 ((x >>> n) ||| (x <<< (32 - n)))

/-- SHA-256 Ch function; complement taken inside 32 bits. -/
def shaCh (x y z : Nat) : Nat := (x &&& y) ^^^ ((x ^^^ 4294967295) &&& z)

/-- SHA-256 Maj function. -/
def shaMaj (x y z : Nat) : Nat := (x &&& y) ^^^ (x &&& z) ^^^ (y &&& z)

/-- SHA-256 big Sigma0. -/
def bigSigma0 (x : Nat) : Nat := rotr 2 x ^^^ rotr 13 x ^^^ rotr 22 x

/-- SHA-256 big Sigma1. -/
def bigSigma1 (x : Nat) : Nat := rotr 6 x ^^^ rotr 11 x ^^^ rotr 25 x

/-- SHA-256 small sigma0. -/
def smallSigma0 (x : Nat) : Nat := rotr 7 x ^^^ rotr 18 x ^^^ (x >>> 3)

/-- SHA-256 small sigma1. -/
def smallSigma1 (x : Nat) : Nat := rotr 17 x ^^^ rotr 19 x ^^^ (x >>> 10)

/-- The 64 SHA-256 round constants (decimal). -/
def shaK : List Nat :=
  [1116352408, 1899447441, 3049323471, 3921009573, 961987163,
   1508970993, 2453635748, 2870763221, 3624381080, 310598401,
   607225278, 1426881987, 1925078388, 2162078206, 2614888103,
   3248222580, 3835390401, 4022224774, 264347078, 604807628,
   770255983, 1249150122, 1555081692, 1996064986, 2554220882,
   2821834349, 2952996808, 3210313671, 3336571891, 3584528711,
   113926993, 338241895, 666307205, 773529912, 1294757372,
   1396182291, 1695183700, 1986661051, 2177026350, 2456956037,
   2730485921, 2820302411, 3259730800, 3345764771, 3516065817,
   3600352804, 4094571909, 275423344, 430227734, 506948616,
   659060556, 883997877, 958139571, 1322822218, 1537002063,
   1747873779, 1955562222, 2024104815, 2227730452, 2361852424,
   2428436474, 2756734187, 3204031479, 3329325298]

/-- The running hash state: eight 32-bit words. -/
structure Hash8 where
  a : Nat
  b : Nat
  c : Nat
  d : Nat
  e : Nat
  f : Nat
  g : Nat
  h : Nat
  deriving Repr, DecidableEq

/-- The SHA-256 initial hash value. -/
def initH : Hash8 :=
  ⟨1779033703, 3144134277, 1013904242, 2773480762,
   1359893119, 2600822924, 528734635, 1541459225⟩

/-- Iterate a function n times. -/
def iterN (f : α → α) : Nat → α → α
  | 0, x => x
  | n + 1, x => iterN f n (f x)

/-- One message-schedule extension step: append word number `ws.length`. -/
def scheduleStep (ws : List Nat) : List Nat :=
  let n := ws.length
  ws ++ [w32 (smallSigma1 (ws.getD (n - 2) 0) + ws.getD (n - 7) 0 +
              smallSigma0 (ws.getD (n - 15) 0) + ws.getD (n - 16) 0)]

/-- Extend a 16-word block to the 64-word message schedule. -/
def schedule (block : List Nat) : List Nat := iterN scheduleStep 48 block

/-- One SHA-256 compression round over (constant, schedule word). -/
def shaRound (st : Hash8) (kw : Nat × Nat) : Hash8 :=
  let t1 := w32 (st.h + bigSigma1 st.e + shaCh st.e st.f st.g + kw.1 + kw.2)
  let t2 := w32 (bigSigma0 st.a + shaMaj st.a st.b st.c)
  ⟨w32 (t1 + t2), st.a, st.b, st.c, w32 (st.d + t1), st.e, st.f, st.g⟩

/-- Compress one 16-word block into the state. -/
def compress (st : Hash8) (block : List Nat) : Hash8 :=
  let t := (shaK.zip (schedule block)).foldl shaRound st
  ⟨w32 (st.a + t.a), w32 (st.b + t.b), w32 (st.c + t.c), w32 (st.d + t.d),
   w32 (st.e + t.e), w32 (st.f + t.f), w32 (st.g + t.g), w32 (st.h + t.h)⟩

/-- Big-endian bytes of a 32-bit word. -/
def wordBytes (w : Nat) : List Nat :=
  [w / 16777216 % 256, w / 65536 % 256, w / 256 % 256, w % 256]

/-- Serialize the hash state as the 32-byte digest. -/
def stateBytes (st : Hash8) : List Nat :=
  wordBytes st.a ++ wordBytes st.b ++ wordBytes st.c ++ wordBytes st.d ++
  wordBytes st.e ++ wordBytes st.f ++ wordBytes st.g ++ wordBytes st.h

/-- Big-endian 8-byte encoding of the 64-bit message bit length. -/
def lenBytes (n : Nat) : List Nat :=
  [n / 72057594037927936 % 256, n / 281474976710656 % 256,
   n / 1099511627776 % 256, n / 4294967296 % 256,
   n / 16777216 % 256, n / 65536 % 256, n / 256 % 256, n % 256]

/-- SHA-256 padding: 0x80, zeros to 56 mod 64, then the bit length. -/
def shaPad (msg : List Nat) : List Nat :=
  let l := msg.length
  msg ++ 128 :: List.replicate ((64 - (l + 9) % 64) % 64) 0 ++ lenBytes (8 * l)

/-- Group bytes into big-endian 32-bit words. -/
def bytesToWords : List Nat → List Nat
  | a :: b :: c :: d :: rest => (a * 16777216 + b * 65536 + c * 256 + d) :: bytesToWords rest
  | _ => []

/-- Split a word list into 16-word chunks, with explicit fuel so that the
    kernel can evaluate it. -/
def chunks16Go : Nat → List Nat → List (List Nat)
  | 0, _ => []
  | _, [] => []
  | fuel + 1, w :: ws => (w :: ws).take 16 :: chunks16Go fuel ((w :: ws).drop 16)

/-- Split a word list into 16-word chunks. -/
def chunks16 (ws : List Nat) : List (List Nat) := chunks16Go ws.length ws

/-- SHA-256 digest (32 bytes) of a byte list. -/
def sha256 (msg : List Nat) : List Nat :=
  stateBytes ((chunks16 (bytesToWords (shaPad msg))).foldl compress initH)

/-! ### Hex encoding (encoding/hex) and UTF-8 bytes of a string -/

/-- The lowercase hex digit for a value below 16. -/
def hexDigit (n : Nat) : Char :=
  "0123456789abcdef".data.getD n '0'

/-- Two lowercase hex characters for one byte. -/
def byteHex (b : Nat) : List Char := [hexDigit (b / 16), hexDigit (b % 16)]

/-- Lowercase hex encoding of a byte list, as encoding/hex produces. -/
def hexEncode (bs : List Nat) : String := ⟨bs.flatMap byteHex⟩

/-- UTF-8 bytes of one character. -/
def utf8Char (c : Char) : List Nat :=
  let n := c.toNat
  if n < 128 then [n]
  else if n < 2048 then [192 + n / 64, 128 + n % 64]
  else if n < 65536 then [224 + n / 4096, 128 + n / 64 % 64, 128 + n % 64]
  else [240 + n / 262144, 128 + n / 4096 % 64, 128 + n / 64 % 64, 128 + n % 64]

/-- UTF-8 bytes of a string, the byte conversion Go applies before hashing. -/
def utf8Bytes (s : String) : List Nat := s.data.flatMap utf8Char

/-! ### Go standard-library models: strings.Join, unicode space, TrimSpace,
    path/filepath (Unix rules) -/

/-- strings.Join: concatenate with a separator between consecutive elements. -/
def goJoin (sep : String) : List String → String
  | [] => ""
  | [x] => x
  | x :: xs => x ++ sep ++ goJoin sep xs

/-- unicode.IsSpace: the White_Space code points Go recognizes. -/
def goIsSpace (c : Char) : Bool :=
  let n := c.toNat
  n = 32 || n = 9 || n = 10 || n = 11 || n = 12 || n = 13 ||
  n = 0x85 || n = 0xA0 || n = 0x1680 || (0x2000 ≤ n && n ≤ 0x200A) ||
  n = 0x2028 || n = 0x2029 || n = 0x202F || n = 0x205F || n = 0x3000

/-- strings.TrimSpace: drop leading and trailing white-space runes. -/
def trimSpace (s : String) : String :=
  ⟨((s.data.dropWhile goIsSpace).reverse.dropWhile goIsSpace).reverse⟩

/-- filepath.IsAbs on Unix: the path starts with a slash. -/
def filepathIsAbs (p : String) : Bool :=
  match p.data with
  | c :: _ => c = '/'
  | [] => false

/-- Split a character list at every occurrence of a character, the strings
    package Split semantics. -/
def splitChar (c : Char) : List Char → List (List Char)
  | [] => [[]]
  | x :: xs =>
    match splitChar c xs with
    | [] => [[]]
    | y :: ys => if x = c then [] :: y :: ys else (x :: y) :: ys

/-- filepath.Clean (Unix): resolve `.`, `..` and duplicate slashes. -/
def filepathClean (path : String) : String :=
  if path = "" then "." else
  let rooted := filepathIsAbs path
  let comps := ((splitChar '/' path.data).map (fun l => (⟨l⟩ : String))).filter
    (fun c => c ≠ "" && c ≠ ".")
  let outRev := comps.foldl (fun acc c =>
      if c = ".." then
        match acc with
        | [] => if rooted then [] else [".."]
        | top :: rest => if top = ".." then c :: acc else rest
      else c :: acc) []
  let s := goJoin "/" outRev.reverse
  if rooted then "/" ++ s
  else if s = "" then "." else s

/-- filepath.Join of two elements (Unix): join with a slash, then Clean. -/
def filepathJoin (a b : String) : String :=
  if a = "" && b = "" then ""
  else if a = "" then filepathClean b
  else if b = "" then filepathClean a
  else filepathClean (a ++ "/" ++ b)

/-- filepath.Abs: Clean an absolute path; otherwise join onto the working
    directory obtained from os.Getwd, failing when Getwd fails. -/
def filepathAbs (getwd : Option String) (path : String) : Except String String :=
  if filepathIsAbs path then .ok (filepathClean path)
  else match getwd with
    | none => .error "getwd failed"
    | some wd => .ok (filepathJoin wd path)

/-! ### Data model of the kcl_exec resource (internal/provider) -/

/-- A terraform-framework string value: unknown, null, or a known string. -/
inductive TfString where
  | unknown
  | null
  | known (s : String)
  deriving Repr, DecidableEq

/-- KclExecResourceModel as read from the plan.  `id` and `output` are
    computed, so only the declared inputs appear here. -/
structure Plan where
  sourceDir : String
  args : Option (List TfString)
  triggers : Option (List (String × TfString))
  timeout : Option Int
  environment : Option (List (String × TfString))
  deriving Repr, DecidableEq

/-- Result of os.Stat: success with file info, a not-exist error, or some
    other error.  The code reacts only to the not-exist case. -/
inductive StatResult where
  | ok (isDir : Bool)
  | errNotExist
  | errOther
  deriving Repr, DecidableEq

/-- One write the external tool performs on stdout or stderr, with the time
    (nanoseconds from start) at which it is produced. -/
structure OutEvent where
  toStderr : Bool
  chunk : String
  atNanos : Nat
  deriving Repr, DecidableEq

/-- Behaviour of the external tool for one invocation: a possible launch
    failure, the production-ordered output events, the exit code, and the
    total running time in nanoseconds. -/
structure ExtProcess where
  startErr : Option String
  events : List OutEvent
  exitCode : Int
  runtimeNanos : Nat
  deriving Repr, DecidableEq

/-- The ambient world Create interacts with: working directory, the stat
    oracle, the ambient environment, and the external tool behaviour as a
    function of (command, args, dir, env). -/
structure World where
  getwd : Option String
  stat : String → StatResult
  environ : List String
  exec : String → List String → String → List String → ExtProcess

/-- Provider-level configuration (the kcl_path attribute; empty when unset). -/
structure ProviderData where
  kclPath : String
  deriving Repr, DecidableEq

/-- Command selection: the provider override when present and nonempty,
    otherwise the literal command name kcl. -/
def kclCommandOf (prov : Option ProviderData) : String :=
  match prov with
  | some p => if p.kclPath ≠ "" then p.kclPath else "kcl"
  | none => "kcl"

/-- ElementsAs into a Go string slice: fails when an element is null or
    unknown. -/
def decodeElems : List TfString → Except Unit (List String)
  | [] => .ok []
  | .known s :: rest => (decodeElems rest).map (s :: ·)
  | _ => .error ()

/-- ElementsAs into a Go string map: fails when a value is null or unknown. -/
def decodeEnvPairs : List (String × TfString) → Except Unit (List (String × String))
  | [] => .ok []
  | (k, .known v) :: rest => (decodeEnvPairs rest).map ((k, v) :: ·)
  | _ => .error ()

/-- Environment preparation: a snapshot of the ambient environment followed
    by one appended key=value entry per supplied pair. -/
def resolveEnv (ambient : List String) (overrides : List (String × String)) : List String :=
  ambient ++ overrides.map (fun kv => kv.1 ++ "=" ++ kv.2)

/-- One nanosecond-per-second factor of time.Second. -/
def nsPerSec : Int := 1000000000

/-- Wrap an integer into the signed 64-bit range, as Go int64 arithmetic does. -/
def wrap64 (x : Int) : Int :=
  (x + 9223372036854775808) % 18446744073709551616 - 9223372036854775808

/-- The effective timeout in nanoseconds: 300 seconds when the attribute is
    null, otherwise the declared value times time.Second in int64 arithmetic. -/
def effTimeoutNanos (t : Option Int) : Int :=
  match t with
  | none => 300 * nsPerSec
  | some v => wrap64 (v * nsPerSec)

/-- The full combined output of a completed process, in production order. -/
def combinedAll (p : ExtProcess) : String :=
  String.join (p.events.map (fun e => e.chunk))

/-- The combined output produced strictly before the deadline d. -/
def combinedBefore (p : ExtProcess) (d : Int) : String :=
  String.join ((p.events.filter (fun e => (e.atNanos : Int) < d)).map (fun e => e.chunk))

/-- cmd.CombinedOutput under a context deadline of d nanoseconds: an already
    expired context refuses to start the process; a process still running at
    the deadline is killed, returning the output produced so far; otherwise
    the error reflects the exit status. -/
def runCmd (p : ExtProcess) (d : Int) : String × Option String :=
  if d ≤ 0 then ("", some "context deadline exceeded")
  else match p.startErr with
    | some e => ("", some e)
    | none =>
      if (p.runtimeNanos : Int) < d then
        (combinedAll p,
         if p.exitCode = 0 then none else some ("exit status " ++ toString p.exitCode))
      else
        (combinedBefore p d, some "signal: killed")

/-- A structured diagnostic (title and detail), as AddError produces. -/
structure Diag where
  title : String
  detail : String
  deriving Repr, DecidableEq

/-- The state persisted by a successful create: the computed id and output
    together with the declared inputs. -/
structure Persisted where
  id : String
  sourceDir : String
  output : String
  args : Option (List TfString)
  triggers : Option (List (String × TfString))
  timeout : Option Int
  environment : Option (List (String × TfString))
  deriving Repr, DecidableEq

/-- Outcome of a create call: the persisted state, if any, and the emitted
    diagnostics. -/
structure CreateResult where
  state : Option Persisted
  diags : List Diag
  deriving Repr, DecidableEq

/-! ### Identity generation -/

/-- The fmt rendering of a Go string slice under the v verb: the elements
    joined by single spaces, in square brackets. -/
def fmtStringSlice (xs : List String) : String := "[" ++ goJoin " " xs ++ "]"

/-- The pipe-joined identity input string built from the four resolved
    inputs. -/
def idInput (absPath kclCommand : String) (args envVars : List String) : String :=
  absPath ++ "|" ++ kclCommand ++ "|" ++ fmtStringSlice args ++ "|" ++ fmtStringSlice envVars

/-- The resource id: hex encoding of the first 16 bytes of the SHA-256
    digest of the identity input string. -/
def identify (absPath kclCommand : String) (args envVars : List String) : String :=
  hexEncode ((sha256 (utf8Bytes (idInput absPath kclCommand args envVars))).take 16)

/-! ### The Create and Update operations -/

/-- The diagnostic emitted when the external tool invocation fails. -/
def execFailedDiag (kclCommand : String) (args : List String) (errStr output : String) : Diag :=
  ⟨"KCL Execution Failed",
   "Command: " ++ kclCommand ++ " " ++ goJoin " " args ++
   "\nError: " ++ errStr ++ "\nOutput: " ++ output⟩

/-- KclExecResource.Create: resolve the source directory, check it exists,
    decode arguments and environment, run the external tool under the
    timeout, and persist id and trimmed output only when everything
    succeeded. -/
def create (w : World) (prov : Option ProviderData) (plan : Plan) : CreateResult :=
  match filepathAbs w.getwd plan.sourceDir with
  | .error e =>
    ⟨none, [⟨"Path Resolution Error", "Invalid source directory path: " ++ e⟩]⟩
  | .ok absPath =>
    match w.stat absPath with
    | .errNotExist =>
      ⟨none, [⟨"Directory Not Found", "Source directory does not exist: " ++ absPath⟩]⟩
    | _ =>
      let kclCommand := kclCommandOf prov
      match (match plan.args with
             | none => Except.ok []
             | some elems => decodeElems elems) with
      | .error _ =>
        ⟨none, [⟨"Value Conversion Error", "unable to convert list elements to string"⟩]⟩
      | .ok args =>
        match (match plan.environment with
               | none => Except.ok []
               | some pairs => decodeEnvPairs pairs) with
        | .error _ =>
          ⟨none, [⟨"Value Conversion Error", "unable to convert map elements to string"⟩]⟩
        | .ok envPairs =>
          let envVars := resolveEnv w.environ envPairs
          let timeoutNs := effTimeoutNanos plan.timeout
          let p := w.exec kclCommand args absPath envVars
          match runCmd p timeoutNs with
          | (output, some errStr) => ⟨none, [execFailedDiag kclCommand args errStr output]⟩
          | (output, none) =>
            ⟨some { id := identify absPath kclCommand args envVars,
                    sourceDir := plan.sourceDir,
                    output := trimSpace output,
                    args := plan.args, triggers := plan.triggers,
                    timeout := plan.timeout, environment := plan.environment }, []⟩

/-- KclExecResource.Update: the handler only appends a fatal diagnostic and
    never writes to the response state, so the persisted state after the
    operation is the prior state unchanged. -/
def update (priorState : Persisted) : Persisted × List Diag :=
  (priorState,
   [⟨"Update Not Supported",
     "KCL execution resource does not support updates - changes require replacement"⟩])

/-! ### Interpretation of an environment vector (os/exec deduplication:
    later entries for the same key win) -/

/-- Strip a prefix from a character list, returning the remainder. -/
def stripPrefixCh : List Char → List Char → Option (List Char)
  | [], e => some e
  | _ :: _, [] => none
  | p :: ps, c :: cs => if p = c then stripPrefixCh ps cs else none

/-- The value an entry binds for key k, when the entry starts with k and an
    equals sign. -/
def entryValue (k : String) (e : String) : Option String :=
  (stripPrefixCh (k.data ++ ['=']) e.data).map (fun l => ⟨l⟩)

/-- The effective value of key k in an environment vector under the
    last-occurrence-wins semantics os/exec applies when deduplicating the
    vector it passes to the child process. -/
def envValue (entries : List String) (k : String) : Option String :=
  entries.foldl (fun acc e =>
    match entryValue k e with
    | some v => some v
    | none => acc) none

/-! ### Example worlds and plans used by witnesses and counterexamples -/

/-- A tool run that prints hello to stdout then world to stderr and exits 0
    after one second. -/
def okProc : ExtProcess :=
  { startErr := none
    events := [⟨false, "hello\n", 5⟩, ⟨true, "world\n", 6⟩]
    exitCode := 0
    runtimeNanos := 1000000000 }

/-- A world whose tool always behaves like okProc. -/
def exWorld : World :=
  { getwd := some "/home/user"
    stat := fun _ => .ok true
    environ := ["A=1"]
    exec := fun _ _ _ _ => okProc }

/-- A plan with only the required attribute set. -/
def exPlan : Plan :=
  { sourceDir := "/deploy", args := none, triggers := none,
    timeout := none, environment := none }

/-- A tool run that emits partial output early and is still running after
    two seconds. -/
def sleepProc : ExtProcess :=
  { startErr := none
    events := [⟨false, "partial", 500000000⟩]
    exitCode := 0
    runtimeNanos := 2000000000 }

/-- A world whose tool sleeps past a one-second timeout. -/
def sleepWorld : World := { exWorld with exec := fun _ _ _ _ => sleepProc }

/-- A tool run that exits immediately with status 1. -/
def failProc : ExtProcess :=
  { startErr := none, events := [], exitCode := 1, runtimeNanos := 1000 }

/-- A world whose tool always fails with exit status 1. -/
def failWorld : World := { exWorld with exec := fun _ _ _ _ => failProc }

/-! ### Digest shape lemmas -/

/-- A lowercase hexadecimal character. -/
def isHexChar (c : Char) : Bool := c.isDigit || ('a' ≤ c && c ≤ 'f')

theorem wordBytes_lt (w : Nat) : ∀ b ∈ wordBytes w, b < 256 := by
  intro b hb
  simp only [wordBytes, List.mem_cons, List.not_mem_nil, or_false] at hb
  rcases hb with rfl | rfl | rfl | rfl <;> omega

theorem stateBytes_length (st : Hash8) : (stateBytes st).length = 32 := by
  simp [stateBytes, wordBytes]

theorem stateBytes_lt (st : Hash8) : ∀ b ∈ stateBytes st, b < 256 := by
  intro b hb
  simp only [stateBytes, List.mem_append] at hb
  rcases hb with ((((((h | h) | h) | h) | h) | h) | h) | h <;> exact wordBytes_lt _ _ h

theorem sha256_length (msg : List Nat) : (sha256 msg).length = 32 :=
  stateBytes_length _

theorem sha256_lt (msg : List Nat) : ∀ b ∈ sha256 msg, b < 256 :=
  stateBytes_lt _

theorem hexDigit_isHex : ∀ n < 16, isHexChar (hexDigit n) = true := by decide

theorem hexEncode_length (bs : List Nat) : (hexEncode bs).length = 2 * bs.length := by
  show (bs.flatMap byteHex).length = 2 * bs.length
  induction bs with
  | nil => simp
  | cons b bs ih => simp only [List.flatMap_cons, List.length_append, ih, byteHex]; simp; omega

theorem hexEncode_hex (bs : List Nat) (hb : ∀ b ∈ bs, b < 256) :
    ∀ ch ∈ (hexEncode bs).data, isHexChar ch = true := by
  intro ch hch
  show isHexChar ch = true
  have hch' : ch ∈ bs.flatMap byteHex := hch
  rw [List.mem_flatMap] at hch'
  obtain ⟨b, hbmem, hin⟩ := hch'
  have hblt : b < 256 := hb b hbmem
  simp only [byteHex, List.mem_cons, List.not_mem_nil, or_false] at hin
  rcases hin with rfl | rfl
  · exact hexDigit_isHex (b / 16) (by omega)
  · exact hexDigit_isHex (b % 16) (by omega)

/-! ### Claim theorems -/

/-- C5: the id is the hex encoding of the SHA-256 digest of the pipe-joined
    inputs truncated to its first 16 bytes, hence is always exactly 32
    lowercase hexadecimal characters, for every choice of the four resolved
    inputs. -/
theorem c5_id_shape (a c : String) (args envVars : List String) :
    (identify a c args envVars).length = 32 ∧
    ∀ ch ∈ (identify a c args envVars).data, isHexChar ch = true := by
  constructor
  · have h := hexEncode_length ((sha256 (utf8Bytes (idInput a c args envVars))).take 16)
    rw [identify, h, List.length_take, sha256_length]
    decide
  · intro ch hch
    refine hexEncode_hex _ ?_ ch hch
    intro b hbmem
    exact sha256_lt _ b (List.take_subset _ _ hbmem)

/-- C9: every Update attempt produces the fatal Update Not Supported
    diagnostic and leaves the persisted state unchanged. -/
theorem c9_update_unsupported (s : Persisted) :
    (update s).1 = s ∧ (update s).2.map Diag.title = ["Update Not Supported"] ∧
    (update s).2 ≠ [] :=
  ⟨rfl, rfl, by simp [update]⟩

/-- C2 is refuted: the empty argument vector and the one-element argument
    vector containing the empty string are different inputs, yet both render
    as two bracket characters under the fmt slice formatting, so the two
    invocations receive the same id. -/
theorem c2_counterexample :
    identify "/work" "kcl" [] ["PATH=/bin"] = identify "/work" "kcl" [""] ["PATH=/bin"] ∧
    ([] : List String) ≠ [""] := by
  refine ⟨?_, by decide⟩
  have h : idInput "/work" "kcl" [] ["PATH=/bin"] =
      idInput "/work" "kcl" [""] ["PATH=/bin"] := by decide
  exact congrArg (fun s => hexEncode ((sha256 (utf8Bytes s)).take 16)) h

/-- C1: create is atomic: it persists state exactly when it emits no error
    diagnostic; every failing stage returns before persisting anything. -/
theorem c1_create_atomic (w : World) (prov : Option ProviderData) (plan : Plan) :
    (create w prov plan).state.isSome = true ↔ (create w prov plan).diags = [] := by
  unfold create
  repeat' split
  all_goals try simp
  all_goals split <;> simp

/-- C6: when the resolved absolute source path does not exist, create fails
    with exactly the Directory Not Found diagnostic and persists nothing;
    and the check is existence only: a path that exists as a regular file
    (isDir false) never triggers that diagnostic. -/
theorem c6_directory_check (w : World) (prov : Option ProviderData) (plan : Plan)
    (absPath : String) (h1 : filepathAbs w.getwd plan.sourceDir = .ok absPath) :
    (w.stat absPath = .errNotExist →
      create w prov plan =
        ⟨none, [⟨"Directory Not Found", "Source directory does not exist: " ++ absPath⟩]⟩) ∧
    (∀ isDir, w.stat absPath = .ok isDir →
      ∀ d ∈ (create w prov plan).diags, d.title ≠ "Directory Not Found") := by
  constructor
  · intro h2
    simp only [create, h1, h2]
  · intro isDir h2 d hd
    simp only [create, h1, h2] at hd
    repeat' split at hd
    all_goals simp only [List.mem_singleton, List.not_mem_nil] at hd
    all_goals first
      | exact hd.elim
      | (subst hd; simp [execFailedDiag])

/-- C3 (amended): when the external process has not completed by the time
    the effective timeout elapses, create persists nothing and fails with
    the generic KCL Execution Failed diagnostic (the taxonomy has no
    distinct timeout error), and the diagnostic carries no output beyond
    what the process produced before the deadline. -/
theorem c3_timeout_failure (w : World) (prov : Option ProviderData) (plan : Plan)
    (absPath : String) (args : List String) (envPairs : List (String × String))
    (p : ExtProcess)
    (h1 : filepathAbs w.getwd plan.sourceDir = .ok absPath)
    (h2 : w.stat absPath ≠ .errNotExist)
    (h3 : (match plan.args with
           | none => Except.ok []
           | some elems => decodeElems elems) = .ok args)
    (h4 : (match plan.environment with
           | none => Except.ok []
           | some pairs => decodeEnvPairs pairs) = .ok envPairs)
    (hp : w.exec (kclCommandOf prov) args absPath (resolveEnv w.environ envPairs) = p)
    (h6 : p.startErr = none)
    (h5 : effTimeoutNanos plan.timeout ≤ (p.runtimeNanos : Int)) :
    (create w prov plan).state = none ∧
    ((create w prov plan).diags =
       [execFailedDiag (kclCommandOf prov) args "context deadline exceeded" ""] ∨
     (create w prov plan).diags =
       [execFailedDiag (kclCommandOf prov) args "signal: killed"
          (combinedBefore p (effTimeoutNanos plan.timeout))]) := by
  rcases hstat : w.stat absPath with isDir | _ | _
  case errNotExist => exact absurd hstat h2
  all_goals
    by_cases hd0 : effTimeoutNanos plan.timeout ≤ 0
  all_goals
    simp only [create, h1, hstat, h3, h4, hp]
  · simp only [runCmd, if_pos hd0]
    simp
  · have hnlt : ¬ ((p.runtimeNanos : Int) < effTimeoutNanos plan.timeout) := by omega
    simp only [runCmd, if_neg hd0, h6, if_neg hnlt]
    simp
  · simp only [runCmd, if_pos hd0]
    simp
  · have hnlt : ¬ ((p.runtimeNanos : Int) < effTimeoutNanos plan.timeout) := by omega
    simp only [runCmd, if_neg hd0, h6, if_neg hnlt]
    simp

/-- C7: on a zero-exit execution within the timeout, create persists state
    whose output is the whitespace-trimmed concatenation of the output
    chunks in production order, with trimming applied exactly once at
    persistence time. -/
theorem c7_output_trimmed (w : World) (prov : Option ProviderData) (plan : Plan)
    (absPath : String) (args : List String) (envPairs : List (String × String))
    (p : ExtProcess)
    (h1 : filepathAbs w.getwd plan.sourceDir = .ok absPath)
    (h2 : w.stat absPath ≠ .errNotExist)
    (h3 : (match plan.args with
           | none => Except.ok []
           | some elems => decodeElems elems) = .ok args)
    (h4 : (match plan.environment with
           | none => Except.ok []
           | some pairs => decodeEnvPairs pairs) = .ok envPairs)
    (hp : w.exec (kclCommandOf prov) args absPath (resolveEnv w.environ envPairs) = p)
    (h6 : p.startErr = none)
    (h5 : (p.runtimeNanos : Int) < effTimeoutNanos plan.timeout)
    (h7 : p.exitCode = 0) :
    (create w prov plan).diags = [] ∧
    (create w prov plan).state =
      some { id := identify absPath (kclCommandOf prov) args (resolveEnv w.environ envPairs),
             sourceDir := plan.sourceDir,
             output := trimSpace (combinedAll p),
             args := plan.args, triggers := plan.triggers,
             timeout := plan.timeout, environment := plan.environment } := by
  have hd0 : ¬ (effTimeoutNanos plan.timeout ≤ 0) := by
    have : (0 : Int) ≤ (p.runtimeNanos : Int) := Int.ofNat_nonneg _
    omega
  rcases hstat : w.stat absPath with isDir | _ | _
  case errNotExist => exact absurd hstat h2
  all_goals
    simp only [create, h1, hstat, h3, h4, hp, runCmd, if_neg hd0, h6, if_pos h5, h7,
               if_pos rfl]
  all_goals simp

theorem wrap64_eq (x : Int) (hlo : -9223372036854775808 ≤ x)
    (hhi : x < 9223372036854775808) : wrap64 x = x := by
  unfold wrap64
  rw [Int.emod_eq_of_lt (by omega) (by omega)]
  omega

/-- C8: when the timeout attribute is unset, create behaves exactly as if
    the timeout had been declared as 300 seconds: same diagnostics, same
    persisted id and same persisted output. -/
theorem c8_default_timeout (w : World) (prov : Option ProviderData) (plan : Plan)
    (h : plan.timeout = none) :
    (create w prov plan).diags = (create w prov { plan with timeout := some 300 }).diags ∧
    (create w prov plan).state.map (fun st => st.id) =
      (create w prov { plan with timeout := some 300 }).state.map (fun st => st.id) ∧
    (create w prov plan).state.map (fun st => st.output) =
      (create w prov { plan with timeout := some 300 }).state.map (fun st => st.output) := by
  have ht : effTimeoutNanos (some 300) = effTimeoutNanos plan.timeout := by
    rw [h]; decide
  simp only [create, ht, h]
  repeat' split
  all_goals simp_all

/-- C10 (amended): a declared non-positive timeout that does not overflow
    the 64-bit nanosecond conversion yields an already expired execution
    context, so the create persists nothing and emits a diagnostic. -/
theorem c10_nonpositive_timeout (w : World) (prov : Option ProviderData) (plan : Plan)
    (v : Int) (hv : plan.timeout = some v) (hlo : -9223372036 ≤ v) (hhi : v ≤ 0) :
    (create w prov plan).state = none ∧ (create w prov plan).diags ≠ [] := by
  have hto : effTimeoutNanos plan.timeout ≤ 0 := by
    rw [hv]
    show wrap64 (v * nsPerSec) ≤ 0
    rw [wrap64_eq (v * nsPerSec) (by unfold nsPerSec; omega) (by unfold nsPerSec; omega)]
    unfold nsPerSec; omega
  unfold create
  repeat' split
  all_goals try simp
  all_goals split
  all_goals simp_all [runCmd, hto]

/-- C10 is refuted as stated: the declared timeout -9223372037 is negative,
    yet its conversion to 64-bit nanoseconds overflows to a large positive
    duration, so this create succeeds and persists state instead of
    failing. -/
theorem c10_counterexample :
    (create exWorld none { exPlan with timeout := some (-9223372037) }).state.isSome = true ∧
    (-9223372037 : Int) < 0 := by
  exact ⟨by decide, by decide⟩

/-- A world in which no path exists. -/
def noDirWorld : World := { exWorld with stat := fun _ => .errNotExist }

/-- C3 is refuted as stated: a tool still running when the one-second
    timeout elapses makes create fail under the generic KCL Execution
    Failed title, the very same title an ordinary exit-status failure
    produces, so no distinct TimeoutError exists in the taxonomy. -/
theorem c3_counterexample :
    (create sleepWorld none { exPlan with timeout := some 1 }).diags.map Diag.title =
      ["KCL Execution Failed"] ∧
    (create failWorld none exPlan).diags.map Diag.title = ["KCL Execution Failed"] ∧
    (create sleepWorld none { exPlan with timeout := some 1 }).state = none :=
  ⟨by decide, by decide, by decide⟩

/-- Witness for c3_timeout_failure: the sleeping tool with a one-second
    timeout. -/
theorem c3_witness :
    (create sleepWorld none { exPlan with timeout := some 1 }).state = none ∧
    ((create sleepWorld none { exPlan with timeout := some 1 }).diags =
       [execFailedDiag "kcl" [] "context deadline exceeded" ""] ∨
     (create sleepWorld none { exPlan with timeout := some 1 }).diags =
       [execFailedDiag "kcl" [] "signal: killed"
          (combinedBefore sleepProc (effTimeoutNanos (some 1)))]) :=
  c3_timeout_failure sleepWorld none { exPlan with timeout := some 1 } "/deploy" [] []
    sleepProc rfl (by decide) rfl rfl rfl rfl (by decide)

/-- Witness for c6_directory_check: a world where the source path does not
    exist yields exactly the Directory Not Found diagnostic. -/
theorem c6_witness :
    create noDirWorld none exPlan =
      ⟨none, [⟨"Directory Not Found", "Source directory does not exist: /deploy"⟩]⟩ :=
  (c6_directory_check noDirWorld none exPlan "/deploy" rfl).1 rfl

/-- Witness for c7_output_trimmed: a tool printing hello to stdout then
    world to stderr persists output hello-newline-world. -/
theorem c7_witness :
    (create exWorld none exPlan).diags = [] ∧
    (create exWorld none exPlan).state =
      some { id := identify "/deploy" "kcl" [] ["A=1"],
             sourceDir := "/deploy", output := trimSpace (combinedAll okProc),
             args := none, triggers := none, timeout := none, environment := none } ∧
    trimSpace (combinedAll okProc) = "hello\nworld" := by
  have h := c7_output_trimmed exWorld none exPlan "/deploy" [] [] okProc
    rfl (by decide) rfl rfl rfl rfl (by decide) rfl
  exact ⟨h.1, h.2, by decide⟩

/-- Witness for c8_default_timeout at a concrete world and plan. -/
theorem c8_witness :
    (create exWorld none exPlan).diags =
      (create exWorld none { exPlan with timeout := some 300 }).diags ∧
    (create exWorld none exPlan).state.map (fun st => st.id) =
      (create exWorld none { exPlan with timeout := some 300 }).state.map (fun st => st.id) ∧
    (create exWorld none exPlan).state.map (fun st => st.output) =
      (create exWorld none { exPlan with timeout := some 300 }).state.map (fun st => st.output) :=
  c8_default_timeout exWorld none exPlan rfl

/-- Witness for c10_nonpositive_timeout: an explicit zero timeout makes the
    create fail even though the tool itself would succeed. -/
theorem c10_witness :
    (create exWorld none { exPlan with timeout := some 0 }).state = none ∧
    (create exWorld none { exPlan with timeout := some 0 }).diags ≠ [] :=
  c10_nonpositive_timeout exWorld none { exPlan with timeout := some 0 } 0 rfl
    (by decide) (by decide)

/-! ### Environment lookup lemmas -/

theorem envValue_foldl (k : String) (es : List String) (acc : Option String) :
    es.foldl (fun a e => match entryValue k e with
      | some v => some v
      | none => a) acc =
      match envValue es k with
      | some v => some v
      | none => acc := by
  induction es generalizing acc with
  | nil => rfl
  | cons e es ih =>
    show es.foldl _ (match entryValue k e with | some v => some v | none => acc) = _
    rw [ih]
    have h2 : envValue (e :: es) k =
        match envValue es k with
        | some v => some v
        | none => (match entryValue k e with | some v => some v | none => none) := by
      show es.foldl _ _ = _
      rw [ih]
    rw [h2]
    cases envValue es k <;> cases entryValue k e <;> rfl

theorem envValue_append (k : String) (xs ys : List String) :
    envValue (xs ++ ys) k =
      match envValue ys k with
      | some v => some v
      | none => envValue xs k := by
  show (xs ++ ys).foldl _ none = _
  rw [List.foldl_append]
  exact envValue_foldl k ys (envValue xs k)

theorem envValue_cons (k e : String) (es : List String) :
    envValue (e :: es) k =
      match envValue es k with
      | some v => some v
      | none => entryValue k e := by
  have h := envValue_append k [e] es
  simp only [List.singleton_append] at h
  rw [h]
  have h1 : envValue [e] k = entryValue k e := by
    show (match entryValue k e with | some v => some v | none => none) = entryValue k e
    cases entryValue k e <;> rfl
  rw [h1]

theorem stripPrefixCh_sep (sep : Char) (a : List Char) :
    ∀ (b rest : List Char), sep ∉ a → sep ∉ b →
    stripPrefixCh (a ++ [sep]) (b ++ sep :: rest) =
      if a = b then some rest else none := by
  induction a with
  | nil =>
    intro b rest _ hb
    cases b with
    | nil => simp [stripPrefixCh]
    | cons c bs =>
      have hc : sep ≠ c := fun h => hb (h ▸ List.mem_cons_self c bs)
      simp [stripPrefixCh, hc]
  | cons c as ih =>
    intro b rest ha hb
    have hca : sep ∉ as := fun h => ha (List.mem_cons_of_mem c h)
    have hcs : c ≠ sep := fun h => ha (h ▸ List.mem_cons_self c as)
    cases b with
    | nil =>
      simp [stripPrefixCh, hcs]
    | cons c' bs =>
      have hbs : sep ∉ bs := fun h => hb (List.mem_cons_of_mem c' h)
      have hstep : stripPrefixCh ((c :: as) ++ [sep]) ((c' :: bs) ++ sep :: rest) =
          if c = c' then stripPrefixCh (as ++ [sep]) (bs ++ sep :: rest) else none := rfl
      rw [hstep, ih bs rest hca hbs]
      by_cases hcc : c = c'
      · subst hcc
        by_cases h : as = bs
        · simp [h]
        · simp [h]
      · have hne : c :: as ≠ c' :: bs := by simp [hcc]
        simp [hcc, hne]

theorem entryValue_entry (k k' v' : String) (hk : '=' ∉ k.data) (hk' : '=' ∉ k'.data) :
    entryValue k (k' ++ "=" ++ v') = if k = k' then some v' else none := by
  unfold entryValue
  have hd : (k' ++ "=" ++ v').data = k'.data ++ '=' :: v'.data := by
    simp [String.data_append]
  rw [hd, stripPrefixCh_sep '=' k.data k'.data v'.data hk hk']
  by_cases h : k = k'
  · subst h
    simp
  · have hdata : k.data ≠ k'.data := fun hh => h (String.ext hh)
    simp [h, hdata]

theorem envValue_overrides_none (k : String) (hk : '=' ∉ k.data) :
    ∀ ov : List (String × String), (∀ p ∈ ov, '=' ∉ p.1.data) →
    (∀ p ∈ ov, p.1 ≠ k) →
    envValue (ov.map (fun kv => kv.1 ++ "=" ++ kv.2)) k = none := by
  intro ov
  induction ov with
  | nil => intro _ _; rfl
  | cons p ov ih =>
    intro hkeys hnot
    rw [List.map_cons, envValue_cons,
        ih (fun q hq => hkeys q (List.mem_cons_of_mem p hq))
           (fun q hq => hnot q (List.mem_cons_of_mem p hq)),
        entryValue_entry k p.1 p.2 hk (hkeys p (List.mem_cons_self p ov))]
    have hne : k ≠ p.1 := fun h => hnot p (List.mem_cons_self p ov) h.symm
    simp [hne]

theorem envValue_overrides_mem (k v : String) (hk : '=' ∉ k.data) :
    ∀ ov : List (String × String), (∀ p ∈ ov, '=' ∉ p.1.data) →
    (ov.map Prod.fst).Nodup → (k, v) ∈ ov →
    envValue (ov.map (fun kv => kv.1 ++ "=" ++ kv.2)) k = some v := by
  intro ov
  induction ov with
  | nil => intro _ _ hmem; cases hmem
  | cons p ov ih =>
    intro hkeys hnd hmem
    rcases List.mem_cons.mp hmem with heq | hmem'
    · subst heq
      rw [List.map_cons] at hnd
      have hnd' := List.nodup_cons.mp hnd
      rw [List.map_cons, envValue_cons,
          envValue_overrides_none k hk ov
            (fun q hq => hkeys q (List.mem_cons_of_mem _ hq))
            (fun q hq hqk =>
              hnd'.1 (by
                have h1 := List.mem_map_of_mem Prod.fst hq
                rw [hqk] at h1
                exact h1)),
          entryValue_entry k k v hk hk]
      simp
    · rw [List.map_cons] at hnd
      have hnd' := List.nodup_cons.mp hnd
      rw [List.map_cons, envValue_cons,
          ih (fun q hq => hkeys q (List.mem_cons_of_mem p hq)) hnd'.2 hmem']

/-- C4: in the resolved environment vector (ambient snapshot plus appended
    override entries), under last-occurrence-wins interpretation every
    supplied key takes its supplied value, and a key not in the supplied
    mapping keeps its ambient value. -/
theorem c4_environment_resolution (amb : List String) (ov : List (String × String))
    (k : String)
    (hkeys : ∀ p ∈ ov, '=' ∉ p.1.data)
    (hnd : (ov.map Prod.fst).Nodup) :
    (∀ v, (k, v) ∈ ov → envValue (resolveEnv amb ov) k = some v) ∧
    ('=' ∉ k.data → k ∉ ov.map Prod.fst →
      envValue (resolveEnv amb ov) k = envValue amb k) := by
  constructor
  · intro v hmem
    have hk : '=' ∉ k.data := hkeys (k, v) hmem
    unfold resolveEnv
    rw [envValue_append, envValue_overrides_mem k v hk ov hkeys hnd hmem]
  · intro hk hnot
    unfold resolveEnv
    rw [envValue_append,
        envValue_overrides_none k hk ov hkeys
          (fun p hp he => hnot (by rw [← he]; exact List.mem_map_of_mem Prod.fst hp))]

/-! ### Injectivity of the identity input on well-formed inputs -/

theorem pipe_data : "|".data = ['|'] := rfl

theorem space_data : " ".data = [' '] := rfl

theorem empty_data : "".data = ([] : List Char) := rfl

theorem append_sep_inj (sep : Char) (a : List Char) :
    ∀ (b as bs : List Char), sep ∉ a → sep ∉ b →
    a ++ sep :: as = b ++ sep :: bs → a = b ∧ as = bs := by
  induction a with
  | nil =>
    intro b as bs _ hb h
    cases b with
    | nil =>
      simp only [List.nil_append, List.cons.injEq] at h
      exact ⟨rfl, h.2⟩
    | cons c bs' =>
      simp only [List.nil_append, List.cons_append, List.cons.injEq] at h
      exact absurd (by rw [h.1]; exact List.mem_cons_self c bs') hb
  | cons c as' ih =>
    intro b as bs ha hb h
    cases b with
    | nil =>
      simp only [List.nil_append, List.cons_append, List.cons.injEq] at h
      exact absurd (by rw [← h.1]; exact List.mem_cons_self c as') ha
    | cons c' b' =>
      simp only [List.cons_append, List.cons.injEq] at h
      obtain ⟨hc, hrest⟩ := h
      have ha' : sep ∉ as' := fun hm => ha (List.mem_cons_of_mem c hm)
      have hb' : sep ∉ b' := fun hm => hb (List.mem_cons_of_mem c' hm)
      obtain ⟨h1, h2⟩ := ih b' as bs ha' hb' hrest
      exact ⟨by rw [hc, h1], h2⟩

theorem goJoin_space_data_cons (x y : String) (ys : List String) :
    (goJoin " " (x :: y :: ys)).data = x.data ++ ' ' :: (goJoin " " (y :: ys)).data := by
  show (x ++ " " ++ goJoin " " (y :: ys)).data = _
  simp [String.data_append, space_data]

theorem goJoin_space_pipeFree : ∀ (xs : List String), (∀ x ∈ xs, '|' ∉ x.data) →
    '|' ∉ (goJoin " " xs).data
  | [], _ => by simp [goJoin, empty_data]
  | [x], h => by
    simpa [goJoin] using h x (List.mem_cons_self x [])
  | x :: y :: ys, h => by
    rw [goJoin_space_data_cons]
    intro hm
    rcases List.mem_append.mp hm with hm1 | hm2
    · exact h x (List.mem_cons_self x (y :: ys)) hm1
    · rcases List.mem_cons.mp hm2 with he | hm3
      · exact absurd he (by decide)
      · exact goJoin_space_pipeFree (y :: ys)
          (fun z hz => h z (List.mem_cons_of_mem x hz)) hm3

theorem fmtStringSlice_data (xs : List String) :
    (fmtStringSlice xs).data = '[' :: ((goJoin " " xs).data ++ [']']) := by
  show ("[" ++ goJoin " " xs ++ "]").data = _
  simp [String.data_append]

theorem fmtStringSlice_pipeFree (xs : List String) (h : ∀ x ∈ xs, '|' ∉ x.data) :
    '|' ∉ (fmtStringSlice xs).data := by
  rw [fmtStringSlice_data]
  intro hm
  rcases List.mem_cons.mp hm with he | hm2
  · exact absurd he (by decide)
  · rcases List.mem_append.mp hm2 with hm3 | hm4
    · exact goJoin_space_pipeFree xs h hm3
    · exact absurd (List.mem_singleton.mp hm4) (by decide)

theorem goJoin_space_inj : ∀ (xs ys : List String),
    (∀ x ∈ xs, x ≠ "" ∧ ' ' ∉ x.data) → (∀ y ∈ ys, y ≠ "" ∧ ' ' ∉ y.data) →
    goJoin " " xs = goJoin " " ys → xs = ys
  | [], [], _, _, _ => rfl
  | [], [y], _, hy, h =>
    absurd h.symm (hy y (List.mem_cons_self y [])).1
  | [], y :: y' :: ys, _, _, h => by
    have hd : ([] : List Char) = y.data ++ ' ' :: (goJoin " " (y' :: ys)).data := by
      have := congrArg String.data h
      rwa [goJoin_space_data_cons] at this
    exact absurd hd.symm (by simp)
  | [x], [], hx, _, h =>
    absurd h (hx x (List.mem_cons_self x [])).1
  | [x], [y], _, _, h => by
    have h' : x = y := h
    rw [h']
  | [x], y :: y' :: ys, hx, _, h => by
    have hd : x.data = y.data ++ ' ' :: (goJoin " " (y' :: ys)).data := by
      have := congrArg String.data h
      rwa [goJoin_space_data_cons] at this
    have hsp : ' ' ∈ x.data := by
      rw [hd]
      exact List.mem_append.mpr (Or.inr (List.mem_cons_self _ _))
    exact absurd hsp (hx x (List.mem_cons_self x [])).2
  | x :: x' :: xs, [], _, _, h => by
    have hd : x.data ++ ' ' :: (goJoin " " (x' :: xs)).data = ([] : List Char) := by
      have := congrArg String.data h
      rwa [goJoin_space_data_cons] at this
    exact absurd hd (by simp)
  | x :: x' :: xs, [y], _, hy, h => by
    have hd : y.data = x.data ++ ' ' :: (goJoin " " (x' :: xs)).data := by
      have := congrArg String.data h.symm
      rwa [goJoin_space_data_cons] at this
    have hsp : ' ' ∈ y.data := by
      rw [hd]
      exact List.mem_append.mpr (Or.inr (List.mem_cons_self _ _))
    exact absurd hsp (hy y (List.mem_cons_self y [])).2
  | x :: x' :: xs, y :: y' :: ys, hx, hy, h => by
    have hd := congrArg String.data h
    rw [goJoin_space_data_cons, goJoin_space_data_cons] at hd
    obtain ⟨h1, h2⟩ := append_sep_inj ' ' x.data y.data _ _
      (hx x (List.mem_cons_self x (x' :: xs))).2
      (hy y (List.mem_cons_self y (y' :: ys))).2 hd
    have hrest := goJoin_space_inj (x' :: xs) (y' :: ys)
      (fun z hz => hx z (List.mem_cons_of_mem x hz))
      (fun z hz => hy z (List.mem_cons_of_mem y hz))
      (String.ext h2)
    rw [String.ext h1, hrest]

theorem fmtStringSlice_inj (xs ys : List String)
    (hx : ∀ x ∈ xs, x ≠ "" ∧ ' ' ∉ x.data) (hy : ∀ y ∈ ys, y ≠ "" ∧ ' ' ∉ y.data)
    (h : fmtStringSlice xs = fmtStringSlice ys) : xs = ys := by
  have hd := congrArg String.data h
  rw [fmtStringSlice_data, fmtStringSlice_data] at hd
  injection hd with _ hd2
  exact goJoin_space_inj xs ys hx hy (String.ext (List.append_cancel_right hd2))

theorem idInput_data (a c : String) (args env : List String) :
    (idInput a c args env).data =
      a.data ++ '|' :: (c.data ++ '|' :: ((fmtStringSlice args).data ++ '|' ::
        (fmtStringSlice env).data)) := by
  simp [idInput, String.data_append, pipe_data]

/-- C2 (amended): identical resolved inputs give identical ids by
    construction, and on well-formed inputs (no pipe characters anywhere,
    argument and environment entries nonempty and space-free) the
    pipe-joined digest-input string is injective in the four inputs, so any
    difference in those inputs changes the string being hashed. -/
theorem c2_idInput_injective
    (wd1 cmd1 : String) (args1 env1 : List String)
    (wd2 cmd2 : String) (args2 env2 : List String)
    (hw1 : '|' ∉ wd1.data) (hk1 : '|' ∉ cmd1.data)
    (hargs1 : ∀ x ∈ args1, x ≠ "" ∧ ' ' ∉ x.data ∧ '|' ∉ x.data)
    (henv1 : ∀ x ∈ env1, x ≠ "" ∧ ' ' ∉ x.data ∧ '|' ∉ x.data)
    (hw2 : '|' ∉ wd2.data) (hk2 : '|' ∉ cmd2.data)
    (hargs2 : ∀ x ∈ args2, x ≠ "" ∧ ' ' ∉ x.data ∧ '|' ∉ x.data)
    (henv2 : ∀ x ∈ env2, x ≠ "" ∧ ' ' ∉ x.data ∧ '|' ∉ x.data)
    (h : idInput wd1 cmd1 args1 env1 = idInput wd2 cmd2 args2 env2) :
    wd1 = wd2 ∧ cmd1 = cmd2 ∧ args1 = args2 ∧ env1 = env2 := by
  have hd := congrArg String.data h
  rw [idInput_data, idInput_data] at hd
  obtain ⟨hwd, hd1⟩ := append_sep_inj '|' wd1.data wd2.data _ _ hw1 hw2 hd
  obtain ⟨hcmd, hd2⟩ := append_sep_inj '|' cmd1.data cmd2.data _ _ hk1 hk2 hd1
  obtain ⟨hargF, henvF⟩ := append_sep_inj '|' _ _ _ _
    (fmtStringSlice_pipeFree args1 (fun x hx => (hargs1 x hx).2.2))
    (fmtStringSlice_pipeFree args2 (fun x hx => (hargs2 x hx).2.2)) hd2
  refine ⟨String.ext hwd, String.ext hcmd, ?_, ?_⟩
  · exact fmtStringSlice_inj args1 args2
      (fun x hx => ⟨(hargs1 x hx).1, (hargs1 x hx).2.1⟩)
      (fun x hx => ⟨(hargs2 x hx).1, (hargs2 x hx).2.1⟩)
      (String.ext hargF)
  · exact fmtStringSlice_inj env1 env2
      (fun x hx => ⟨(henv1 x hx).1, (henv1 x hx).2.1⟩)
      (fun x hx => ⟨(henv2 x hx).1, (henv2 x hx).2.1⟩)
      (String.ext henvF)

/-- Witness for c2_idInput_injective at concrete well-formed inputs. -/
theorem c2_witness :
    "/w" = "/w" ∧ "kcl" = "kcl" ∧ (["a"] : List String) = ["a"] ∧
    (["A=1"] : List String) = ["A=1"] :=
  c2_idInput_injective "/w" "kcl" ["a"] ["A=1"] "/w" "kcl" ["a"] ["A=1"]
    (by decide) (by decide) (by decide) (by decide)
    (by decide) (by decide) (by decide) (by decide) rfl

/-- Witness for c4_environment_resolution: ambient A=1 with overrides A=2
    and B=3 yields effective A=2 and B=3. -/
theorem c4_witness :
    envValue (resolveEnv ["A=1"] [("A", "2"), ("B", "3")]) "A" = some "2" ∧
    envValue (resolveEnv ["A=1"] [("A", "2"), ("B", "3")]) "B" = some "3" :=
  ⟨(c4_environment_resolution ["A=1"] [("A", "2"), ("B", "3")] "A"
      (by decide) (by decide)).1 "2" (by decide),
   (c4_environment_resolution ["A=1"] [("A", "2"), ("B", "3")] "B"
      (by decide) (by decide)).1 "3" (by decide)⟩

end KclSpec
